import Mathlib

/-!
Verification development for the ignition-manifests-and-kubeconfig-generate
repository (src/render_files.py).  The BMH-injection orchestrator
`update_bmh_files`, the S3 upload helpers `upload_to_aws`, `upload_to_s3`
and `debug_print_upload_to_s3` are embedded below; the helper modules
`utils`, `bmh_utils` and `test_utils` are not part of the repository source,
so their functions are modelled from the specification (each such definition
says so in its doc comment).
-/

set_option maxRecDepth 8000

namespace RenderFiles

/-- One inventory entry for a cluster (spec section 3, HostRecord): stable
host identifier, boot MAC address, and BMC addressing info. -/
structure HostRecord where
  id : String
  mac : String
  bmc : String
deriving Repr, DecidableEq

/-- The decoded form of a file entry content when that entry is a BMH
custom resource (spec section 3, BmhManifest). -/
structure BmhManifest where
  name : String
  namespc : String
  bootMac : String
  bmcAddress : String
  online : Bool
  extraFields : List (String × String)
deriving Repr, DecidableEq

/-- The content payload of a file entry together with its encoding envelope
(spec section 4.2: a base64 or inline text envelope wrapping a structured
document; entries that do not embed a BMH manifest carry raw content). -/
inductive Payload where
  | inline (m : BmhManifest)
  | b64 (m : BmhManifest)
  | raw (s : String)
deriving Repr, DecidableEq

/-- One entry of the `storage.files` list of the boot document
(spec section 3, FileEntry): target path, content payload, and auxiliary
metadata preserved verbatim. -/
structure FileEntry where
  path : String
  contents : Payload
  mode : Int
  overwrite : Bool
  extra : List (String × String)
deriving Repr, DecidableEq

/-- The decoded boot-configuration document (spec section 3, BootDocument):
the ordered `storage.files` sequence plus all other top-level sections,
which `update_bmh_files` never touches. -/
structure BootDocument where
  files : List FileEntry
  rest : List (String × String)
deriving Repr, DecidableEq

/-- The observable on-disk state of the ignition file: a well-formed JSON
document, malformed bytes, or the truncated state a file is in right after
being opened in write mode and before content is written. -/
inductive DiskFile where
  | doc (d : BootDocument)
  | malformed (s : String)
  | truncated
deriving Repr, DecidableEq

/-- The error kinds of spec section 7. -/
inductive BmhError where
  | retrieval (msg : String)
  | decodeErr (msg : String)
  | correlation (msg : String)
  | encodeErr (msg : String)
  | persist (msg : String)
deriving Repr, DecidableEq

/-- The message text carried by an internal error (the `str(ex)` of the
Python exception). -/
def BmhError.text : BmhError → String
  | .retrieval s => "RetrievalError: " ++ s
  | .decodeErr s => "DecodeError: " ++ s
  | .correlation s => "CorrelationError: " ++ s
  | .encodeErr s => "EncodeError: " ++ s
  | .persist s => "PersistError: " ++ s

/-- render_files.py line 60: the raised top-level exception message,
`Failed to update BMH CRs in bootstrap ignition, exception: ` followed by
the formatted original exception. -/
def wrap_error (e : BmhError) : String :=
  "Failed to update BMH CRs in bootstrap ignition, exception: " ++ e.text

/-- Observable steps taken by `update_bmh_files`, in order. -/
inductive Event where
  | fetchInventory (endpoint cluster : String)
  | fetchStub (cluster : String)
  | openRead
  | mutateEntry (path : String)
  | openWrite
  | writeDoc
deriving Repr, DecidableEq

/-- Whether an event is a host-list fetch. -/
def Event.isFetch : Event → Bool
  | .fetchInventory _ _ => true
  | .fetchStub _ => true
  | _ => false

/-- Python truthiness of the `inventory_endpoint` value at
render_files.py line 43: `None` and the empty string are falsy. -/
def truthy : Option String → Bool
  | none => false
  | some s => !(s == "")

/-- Modelled from the spec: `test_utils.get_test_list_hosts` is absent from
src/. Spec section 6: a stub provider with fixed, deterministic host
records for environments without a live endpoint. -/
def get_test_list_hosts (cluster_id : String) : List HostRecord :=
  [ { id := cluster_id ++ "-host-0", mac := "00:1a:4a:00:00:00", bmc := "ipmi://192.168.111.1" },
    { id := cluster_id ++ "-host-1", mac := "00:1a:4a:00:00:01", bmc := "ipmi://192.168.111.2" },
    { id := cluster_id ++ "-host-2", mac := "00:1a:4a:00:00:02", bmc := "ipmi://192.168.111.3" } ]

/-- Modelled from the spec: `bmh_utils.is_bmh_cr_file` is absent from src/.
Spec section 4.1: a pure predicate on the target path matching the fixed
naming convention for BMH custom resources (section 8 example path
`/opt/openshift/bmh-name.yaml`). -/
def is_bmh_cr_file (path : String) : Bool :=
  "/opt/openshift/openshift-".data.isPrefixOf path.data &&
    "_baremetalhost.yaml".data.isSuffixOf path.data

/-- Overwrite only the hardware and network fields of the manifest spec,
leaving name, namespace and all other fields untouched (spec section 4.2). -/
def apply_host (m : BmhManifest) (h : HostRecord) : BmhManifest :=
  { m with bootMac := h.mac, bmcAddress := h.bmc }

/-- Modelled from the spec: `bmh_utils.update_bmh_cr_file` is absent from
src/. Spec section 4.2: decode the entry content using the envelope the
entry declares (a decode failure is fatal), correlate positionally with the
host list (the call consumes the host at the current ordinal; exhaustion of
the host list is a correlation error), overwrite the hardware and network
fields, and re-encode with the identical envelope; only `contents`
changes. -/
def update_bmh_cr_file (entry : FileEntry) (hosts : List HostRecord) :
    Except BmhError (FileEntry × List HostRecord) :=
  match hosts with
  | [] => .error (.correlation "fewer host records than qualifying manifests")
  | h :: hs =>
    match entry.contents with
    | .raw _ => .error (.decodeErr ("embedded content of " ++ entry.path ++ " is not a valid BMH manifest"))
    | .inline m => .ok ({ entry with contents := .inline (apply_host m h) }, hs)
    | .b64 m => .ok ({ entry with contents := .b64 (apply_host m h) }, hs)

/-- The loop of render_files.py lines 53-55: walk `storage.files` in order
and call `update_bmh_cr_file` on every entry whose path satisfies
`is_bmh_cr_file`, threading the host list; returns the mutation events
attempted together with either the first error raised or the updated entry
list and the remaining hosts. -/
def update_files_loop : List FileEntry → List HostRecord →
    List Event × Except BmhError (List FileEntry × List HostRecord)
  | [], hosts => ([], .ok ([], hosts))
  | e :: rest, hosts =>
    if is_bmh_cr_file e.path then
      match update_bmh_cr_file e hosts with
      | .error err => ([.mutateEntry e.path], .error err)
      | .ok (e2, hosts2) =>
        match update_files_loop rest hosts2 with
        | (evs, .error err) => (.mutateEntry e.path :: evs, .error err)
        | (evs, .ok (rs, h3)) => (.mutateEntry e.path :: evs, .ok (e2 :: rs, h3))
    else
      match update_files_loop rest hosts with
      | (evs, .error err) => (evs, .error err)
      | (evs, .ok (rs, h3)) => (evs, .ok (e :: rs, h3))

/-- The outcome of one invocation of `update_bmh_files`: the value returned
or exception raised to the caller, the internal exception that was wrapped
(if any), the final on-disk file, every successive on-disk state observable
during the run (the initial state first), and the event trace. -/
structure RunResult where
  result : Except String Unit
  raised : Option BmhError
  disk : DiskFile
  diskTrace : List DiskFile
  events : List Event

/-- render_files.py lines 49-58: with the host list already resolved, open
the document in read mode and decode it (`json.load` raises on malformed
content), run the mutation loop over `storage.files`, and on success open
the same file in write mode — which truncates it on open — and dump the
updated document.  Every observable on-disk state is recorded in
`diskTrace`, the initial state first. -/
def process_document (hosts_list : List HostRecord) (fetchEv : Event) (disk : DiskFile) :
    RunResult :=
  match disk with
  | .doc data =>
      match update_files_loop data.files hosts_list with
      | (evs, .error e) =>
          { result := .error (wrap_error e), raised := some e, disk := disk,
            diskTrace := [disk], events := fetchEv :: .openRead :: evs }
      | (evs, .ok (files2, _)) =>
          let data2 : BootDocument := { data with files := files2 }
          { result := .ok (), raised := none, disk := .doc data2,
            diskTrace := [disk, .truncated, .doc data2],
            events := fetchEv :: .openRead :: evs ++ [.openWrite, .writeDoc] }
  | .malformed s =>
      let e : BmhError := .decodeErr ("boot document is not valid JSON: " ++ s)
      { result := .error (wrap_error e), raised := some e, disk := disk,
        diskTrace := [disk], events := [fetchEv, .openRead] }
  | .truncated =>
      let e : BmhError := .decodeErr "boot document is not valid JSON: empty file"
      { result := .error (wrap_error e), raised := some e, disk := disk,
        diskTrace := [disk], events := [fetchEv, .openRead] }

/-- render_files.py lines 41-60, `update_bmh_files`: resolve the host list
exactly once — the live inventory client when the endpoint is truthy, the
deterministic stub provider otherwise — then process the document; any
exception is wrapped into one top-level exception (line 60).  The live
inventory call (`utils.get_inventory_hosts`, absent from src/) is passed in
as the `inventory` function since it is an external network collaborator. -/
def update_bmh_files (inventory : String → String → Except BmhError (List HostRecord))
    (disk : DiskFile) (cluster_id : String) (inventory_endpoint : Option String) :
    RunResult :=
  let ep := inventory_endpoint.getD ""
  if truthy inventory_endpoint then
    match inventory ep cluster_id with
    | .error e =>
        { result := .error (wrap_error e), raised := some e, disk := disk,
          diskTrace := [disk], events := [.fetchInventory ep cluster_id] }
    | .ok hosts_list =>
        process_document hosts_list (.fetchInventory ep cluster_id) disk
  else
    process_document (get_test_list_hosts cluster_id) (.fetchStub cluster_id) disk

/-- Number of entries whose path satisfies the BMH predicate. -/
def qualCount (l : List FileEntry) : Nat :=
  (l.filter (fun e => is_bmh_cr_file e.path)).length

/-- Whether a payload decodes as a BMH manifest. -/
def Payload.decodable : Payload → Bool
  | .raw _ => false
  | .inline _ => true
  | .b64 _ => true

/-- Whether the recorded internal exception is a correlation error. -/
def isCorrelationRaised : Option BmhError → Bool
  | some (.correlation _) => true
  | _ => false

/-- One file discovered by the `os.walk` over the install directory:
the directory it lives in and its base name. -/
structure FoundFile where
  root : String
  name : String
deriving Repr, DecidableEq

/-- What the S3 client does for one `upload_file` call: succeed, raise
`NoCredentialsError`, or raise some other exception. -/
inductive UploadOutcome where
  | success
  | noCredentials
  | otherError (msg : String)
deriving Repr, DecidableEq

/-- render_files.py lines 31-38, `upload_to_aws`: perform one upload;
return `True` on success, catch `NoCredentialsError` and return `False`;
any other exception propagates to the caller. -/
def upload_to_aws (outcome : UploadOutcome) : Except String Bool :=
  match outcome with
  | .success => .ok true
  | .noCredentials => .ok false
  | .otherError msg => .error msg

/-- render_files.py lines 63-75, `upload_to_s3`: walk the discovered files
in order; for each one, build the local path from root and base name, remap
a base name that is exactly `kubeconfig` to `kubeconfig-noingress`, key the
object as the cluster id, a slash, and the (possibly remapped) name, and
call `upload_to_aws`, ignoring its boolean result.  Returns the list of
(local path, object key) pairs attempted, or the first propagated
exception.  The `client` function stands for the boto3 S3 client. -/
def upload_to_s3 (client : String → String → UploadOutcome) (cluster_id : String) :
    List FoundFile → Except String (List (String × String))
  | [] => .ok []
  | f :: rest =>
    let file_path := f.root ++ "/" ++ f.name
    let file_name := if f.name = "kubeconfig" then "kubeconfig-noingress" else f.name
    let s3_file_name := cluster_id ++ "/" ++ file_name
    match upload_to_aws (client file_path s3_file_name) with
    | .error msg => .error msg
    | .ok _ =>
      match upload_to_s3 client cluster_id rest with
      | .error msg => .error msg
      | .ok pairs => .ok ((file_path, s3_file_name) :: pairs)

/-- render_files.py lines 78-86, `debug_print_upload_to_s3`: same walk and
same remapping of the base name `kubeconfig`, with the fixed
`dummy_cluster_id` object key and no actual upload. -/
def debug_print_upload_to_s3 (files : List FoundFile) : List (String × String) :=
  files.map fun f =>
    (f.root ++ "/" ++ f.name,
      "dummy_cluster_id" ++ "/" ++
        (if f.name = "kubeconfig" then "kubeconfig-noingress" else f.name))

/-- A sample BMH manifest with placeholder hardware fields. -/
def sampleManifest : BmhManifest :=
  { name := "openshift-master-0", namespc := "openshift-machine-api",
    bootMac := "00:00:00:00:00:00", bmcAddress := "", online := true,
    extraFields := [("bootMode", "legacy")] }

/-- A qualifying file entry embedding a well-formed manifest. -/
def bmhEntry0 : FileEntry :=
  { path := "/opt/openshift/openshift-master-0_baremetalhost.yaml",
    contents := .b64 sampleManifest, mode := 420, overwrite := true, extra := [] }

/-- A second qualifying file entry embedding a well-formed manifest. -/
def bmhEntry1 : FileEntry :=
  { path := "/opt/openshift/openshift-master-1_baremetalhost.yaml",
    contents := .b64 sampleManifest, mode := 420, overwrite := true, extra := [] }

/-- A non-qualifying file entry. -/
def motdEntry : FileEntry :=
  { path := "/etc/motd", contents := .raw "hi", mode := 420, overwrite := true,
    extra := [("user", "root")] }

/-- A qualifying file entry whose embedded content does not decode. -/
def rawBmhEntry : FileEntry :=
  { path := "/opt/openshift/openshift-master-9_baremetalhost.yaml",
    contents := .raw "not-a-manifest", mode := 420, overwrite := true, extra := [] }

/-- A sample inventory host record. -/
def hostA : HostRecord :=
  { id := "host-1", mac := "52:54:00:aa:bb:cc", bmc := "ipmi://10.0.0.1" }

/-- A document with one non-qualifying and one qualifying entry. -/
def sampleDoc : BootDocument :=
  { files := [motdEntry, bmhEntry0], rest := [("ignition", "3.1.0")] }

/-- A document with no qualifying entries. -/
def noMatchDoc : BootDocument :=
  { files := [motdEntry], rest := [("ignition", "3.1.0")] }

/-- A document with two decodable qualifying entries. -/
def excessDoc : BootDocument :=
  { files := [bmhEntry0, bmhEntry1], rest := [] }

/-- A document with two qualifying entries, the first of which does not
decode. -/
def rawExcessDoc : BootDocument :=
  { files := [rawBmhEntry, bmhEntry0], rest := [] }

/-- An inventory provider that returns a single host record. -/
def oneHostInv : String → String → Except BmhError (List HostRecord) :=
  fun _ _ => .ok [hostA]

/-- An inventory provider whose endpoint is unreachable. -/
def downInv : String → String → Except BmhError (List HostRecord) :=
  fun _ _ => .error (.retrieval "endpoint unreachable")

/-- A sample walk over an install directory. -/
def walkFiles : List FoundFile :=
  [ { root := "/install", name := "kubeconfig" },
    { root := "/install", name := "bootstrap.ign" } ]

/-- The upload pairs produced for `walkFiles` under cluster id `c1`. -/
def walkPairs : List (String × String) :=
  [ ("/install/kubeconfig", "c1/kubeconfig-noingress"),
    ("/install/bootstrap.ign", "c1/bootstrap.ign") ]

/-- An S3 client for which every upload succeeds. -/
def allSuccessClient : String → String → UploadOutcome := fun _ _ => .success

/-- An S3 client with no credentials configured. -/
def noCredsClient : String → String → UploadOutcome := fun _ _ => .noCredentials

/-- The frame relation between an input file entry and the corresponding
output entry: every field except the content payload is preserved, and an
entry that is not a BMH manifest is preserved entirely. -/
def entryRel (a b : FileEntry) : Prop :=
  b.path = a.path ∧ b.mode = a.mode ∧ b.overwrite = a.overwrite ∧ b.extra = a.extra ∧
    (is_bmh_cr_file a.path = false → b = a)

theorem update_bmh_cr_file_frame (e : FileEntry) (hosts : List HostRecord)
    (e2 : FileEntry) (hs2 : List HostRecord)
    (h : update_bmh_cr_file e hosts = .ok (e2, hs2)) :
    e2.path = e.path ∧ e2.mode = e.mode ∧ e2.overwrite = e.overwrite ∧
      e2.extra = e.extra ∧ hosts.length = hs2.length + 1 := by
  unfold update_bmh_cr_file at h
  cases hosts with
  | nil => simp at h
  | cons hd tl =>
    cases hc : e.contents <;> rw [hc] at h <;> simp at h
    all_goals
      obtain ⟨he, ht⟩ := h
      subst ht
      rw [← he]
      simp

theorem loop_fst_cons (e : FileEntry) (rest : List FileEntry) (hosts : List HostRecord) :
    (update_files_loop (e :: rest) hosts).1 =
      if is_bmh_cr_file e.path then
        match update_bmh_cr_file e hosts with
        | .error _ => [.mutateEntry e.path]
        | .ok (_, hosts2) => .mutateEntry e.path :: (update_files_loop rest hosts2).1
      else (update_files_loop rest hosts).1 := by
  by_cases hb : is_bmh_cr_file e.path
  · cases hu : update_bmh_cr_file e hosts with
    | error err => simp [update_files_loop, hb, hu]
    | ok pr =>
      obtain ⟨e2, hosts2⟩ := pr
      cases hrec : update_files_loop rest hosts2 with
      | mk evs res => cases res <;> simp [update_files_loop, hb, hu, hrec]
  · cases hrec : update_files_loop rest hosts with
    | mk evs res => cases res <;> simp [update_files_loop, hb, hrec]

theorem loop_snd_cons (e : FileEntry) (rest : List FileEntry) (hosts : List HostRecord) :
    (update_files_loop (e :: rest) hosts).2 =
      if is_bmh_cr_file e.path then
        match update_bmh_cr_file e hosts with
        | .error err => .error err
        | .ok (e2, hosts2) =>
          match (update_files_loop rest hosts2).2 with
          | .error err => .error err
          | .ok (rs, h3) => .ok (e2 :: rs, h3)
      else
        match (update_files_loop rest hosts).2 with
        | .error err => .error err
        | .ok (rs, h3) => .ok (e :: rs, h3) := by
  by_cases hb : is_bmh_cr_file e.path
  · cases hu : update_bmh_cr_file e hosts with
    | error err => simp [update_files_loop, hb, hu]
    | ok pr =>
      obtain ⟨e2, hosts2⟩ := pr
      cases hrec : update_files_loop rest hosts2 with
      | mk evs res => cases res with
        | error err => simp [update_files_loop, hb, hu, hrec]
        | ok pr2 => obtain ⟨rs, h3⟩ := pr2; simp [update_files_loop, hb, hu, hrec]
  · cases hrec : update_files_loop rest hosts with
    | mk evs res => cases res with
      | error err => simp [update_files_loop, hb, hrec]
      | ok pr2 => obtain ⟨rs, h3⟩ := pr2; simp [update_files_loop, hb, hrec]

theorem loop_events_mutate (l : List FileEntry) (hosts : List HostRecord) :
    ∀ ev ∈ (update_files_loop l hosts).1, ∃ p, ev = Event.mutateEntry p := by
  induction l generalizing hosts with
  | nil => intro ev hev; simp [update_files_loop] at hev
  | cons e rest ih =>
    intro ev hev
    rw [loop_fst_cons] at hev
    by_cases hb : is_bmh_cr_file e.path
    · rw [if_pos hb] at hev
      cases hu : update_bmh_cr_file e hosts with
      | error err =>
        rw [hu] at hev; simp at hev; exact ⟨e.path, hev⟩
      | ok pr =>
        obtain ⟨e2, hosts2⟩ := pr
        rw [hu] at hev; simp at hev
        rcases hev with hev | hev
        · exact ⟨e.path, hev⟩
        · exact ih hosts2 ev hev
    · rw [if_neg hb] at hev
      exact ih hosts ev hev

theorem loop_frame (l : List FileEntry) (hosts : List HostRecord)
    (l2 : List FileEntry) (h2 : List HostRecord)
    (h : (update_files_loop l hosts).2 = .ok (l2, h2)) :
    List.Forall₂ entryRel l l2 := by
  induction l generalizing hosts l2 h2 with
  | nil =>
    simp [update_files_loop] at h
    simp [h.1]
  | cons e rest ih =>
    rw [loop_snd_cons] at h
    split at h
    case isTrue hb =>
      split at h
      case h_1 err hu => simp at h
      case h_2 e2 hosts2 hu =>
        split at h
        case h_1 err hrec => simp at h
        case h_2 rs h3 hrec =>
          simp at h
          obtain ⟨hl2, _⟩ := h
          rw [← hl2]
          have hfr := update_bmh_cr_file_frame e hosts e2 hosts2 hu
          exact List.Forall₂.cons
            ⟨hfr.1, hfr.2.1, hfr.2.2.1, hfr.2.2.2.1,
              fun hc => by rw [hc] at hb; exact absurd hb (by simp)⟩
            (ih hosts2 rs h3 hrec)
    case isFalse hb =>
      split at h
      case h_1 err hrec => simp at h
      case h_2 rs h3 hrec =>
        simp at h
        obtain ⟨hl2, _⟩ := h
        rw [← hl2]
        exact List.Forall₂.cons ⟨rfl, rfl, rfl, rfl, fun _ => rfl⟩
          (ih hosts rs h3 hrec)

theorem loop_no_match (l : List FileEntry) (hosts : List HostRecord)
    (h : ∀ e ∈ l, is_bmh_cr_file e.path = false) :
    update_files_loop l hosts = ([], .ok (l, hosts)) := by
  induction l with
  | nil => simp [update_files_loop]
  | cons e rest ih =>
    have he : is_bmh_cr_file e.path = false := h e (by simp)
    have hrec := ih (fun x hx => h x (by simp [hx]))
    have h1 := loop_fst_cons e rest hosts
    have h2 := loop_snd_cons e rest hosts
    rw [hrec] at h1 h2
    simp [he] at h1 h2
    exact Prod.ext h1 h2

theorem qualCount_cons (e : FileEntry) (rest : List FileEntry) :
    qualCount (e :: rest) =
      (if is_bmh_cr_file e.path then 1 else 0) + qualCount rest := by
  unfold qualCount
  rw [List.filter_cons]
  by_cases hb : is_bmh_cr_file e.path <;> simp [hb, Nat.add_comm]

theorem loop_excess_fails (l : List FileEntry) (hosts : List HostRecord)
    (h : hosts.length < qualCount l) :
    ∃ err, (update_files_loop l hosts).2 = .error err := by
  induction l generalizing hosts with
  | nil => simp [qualCount] at h
  | cons e rest ih =>
    rw [qualCount_cons] at h
    rw [loop_snd_cons]
    by_cases hb : is_bmh_cr_file e.path
    · rw [if_pos hb]
      rw [if_pos hb] at h
      cases hu : update_bmh_cr_file e hosts with
      | error err => exact ⟨err, by simp⟩
      | ok pr =>
        obtain ⟨e2, hosts2⟩ := pr
        have hfr := update_bmh_cr_file_frame e hosts e2 hosts2 hu
        have hlt : hosts2.length < qualCount rest := by omega
        obtain ⟨err, herr⟩ := ih hosts2 hlt
        exact ⟨err, by simp [herr]⟩
    · rw [if_neg hb]
      rw [if_neg hb] at h
      simp at h
      obtain ⟨err, herr⟩ := ih hosts h
      exact ⟨err, by simp [herr]⟩

theorem loop_excess_correlation (l : List FileEntry) (hosts : List HostRecord)
    (h : hosts.length < qualCount l)
    (hdec : ∀ e ∈ l, is_bmh_cr_file e.path = true → e.contents.decodable = true) :
    (update_files_loop l hosts).2 =
      .error (.correlation "fewer host records than qualifying manifests") := by
  induction l generalizing hosts with
  | nil => simp [qualCount] at h
  | cons e rest ih =>
    rw [qualCount_cons] at h
    rw [loop_snd_cons]
    by_cases hb : is_bmh_cr_file e.path
    · rw [if_pos hb]
      rw [if_pos hb] at h
      cases hosts with
      | nil =>
        simp [update_bmh_cr_file]
      | cons hd tl =>
        have hd2 : e.contents.decodable = true := hdec e (by simp) hb
        have hlt : tl.length < qualCount rest := by simp at h; omega
        have hrec := ih tl hlt (fun x hx h1 => hdec x (by simp [hx]) h1)
        cases hc : e.contents with
        | raw s => rw [hc] at hd2; simp [Payload.decodable] at hd2
        | inline m =>
          have hu : update_bmh_cr_file e (hd :: tl) =
              .ok ({ e with contents := .inline (apply_host m hd) }, tl) := by
            unfold update_bmh_cr_file; rw [hc]
          rw [hu]
          simp [hrec]
        | b64 m =>
          have hu : update_bmh_cr_file e (hd :: tl) =
              .ok ({ e with contents := .b64 (apply_host m hd) }, tl) := by
            unfold update_bmh_cr_file; rw [hc]
          rw [hu]
          simp [hrec]
    · rw [if_neg hb]
      rw [if_neg hb] at h
      simp at h
      have hrec := ih hosts h (fun x hx h1 => hdec x (by simp [hx]) h1)
      simp [hrec]

theorem process_document_wraps (hosts : List HostRecord) (fe : Event) (disk : DiskFile) :
    (process_document hosts fe disk).result =
      match (process_document hosts fe disk).raised with
      | some e => .error (wrap_error e)
      | none => .ok () := by
  cases disk with
  | doc data =>
    cases hrec : update_files_loop data.files hosts with
    | mk evs res =>
      cases res with
      | error e => simp [process_document, hrec]
      | ok pr => obtain ⟨fs, hs⟩ := pr; simp [process_document, hrec]
  | malformed s => simp [process_document]
  | truncated => simp [process_document]

theorem process_document_fail (hosts : List HostRecord) (fe : Event) (disk : DiskFile)
    (e : BmhError) (hfe : fe.isFetch = true)
    (h : (process_document hosts fe disk).raised = some e) :
    (process_document hosts fe disk).disk = disk ∧
      (process_document hosts fe disk).diskTrace = [disk] ∧
      (process_document hosts fe disk).result = .error (wrap_error e) ∧
      Event.openWrite ∉ (process_document hosts fe disk).events := by
  cases disk with
  | doc data =>
    cases hrec : update_files_loop data.files hosts with
    | mk evs res =>
      cases res with
      | error e2 =>
        simp [process_document, hrec] at h ⊢
        refine ⟨by rw [h], ?_, ?_⟩
        · intro hc; rw [← hc] at hfe; simp [Event.isFetch] at hfe
        · intro hc
          obtain ⟨p, hp⟩ := loop_events_mutate data.files hosts Event.openWrite (by rw [hrec]; exact hc)
          simp at hp
      | ok pr =>
        obtain ⟨fs, hs⟩ := pr
        simp [process_document, hrec] at h
  | malformed s =>
    simp [process_document] at h ⊢
    refine ⟨by rw [h], ?_⟩
    intro hc; rw [← hc] at hfe; simp [Event.isFetch] at hfe
  | truncated =>
    simp [process_document] at h ⊢
    refine ⟨by rw [h], ?_⟩
    intro hc; rw [← hc] at hfe; simp [Event.isFetch] at hfe

theorem process_document_success (hosts : List HostRecord) (fe : Event) (disk : DiskFile)
    (h : (process_document hosts fe disk).raised = none) :
    ∃ data files2 hs2, disk = .doc data ∧
      (update_files_loop data.files hosts).2 = .ok (files2, hs2) ∧
      process_document hosts fe disk =
        { result := .ok (), raised := none,
          disk := .doc { data with files := files2 },
          diskTrace := [disk, .truncated, .doc { data with files := files2 }],
          events := fe :: .openRead ::
            (update_files_loop data.files hosts).1 ++ [.openWrite, .writeDoc] } := by
  cases disk with
  | doc data =>
    cases hrec : update_files_loop data.files hosts with
    | mk evs res =>
      cases res with
      | error e2 => simp [process_document, hrec] at h
      | ok pr =>
        obtain ⟨fs, hs⟩ := pr
        refine ⟨data, fs, hs, rfl, by rw [hrec], ?_⟩
        simp [process_document, hrec]
  | malformed s => simp [process_document] at h
  | truncated => simp [process_document] at h

theorem update_bmh_files_shape (inv : String → String → Except BmhError (List HostRecord))
    (disk : DiskFile) (cid : String) (ep : Option String) :
    (∃ e, inv (ep.getD "") cid = .error e ∧
      update_bmh_files inv disk cid ep =
        { result := .error (wrap_error e), raised := some e, disk := disk,
          diskTrace := [disk], events := [.fetchInventory (ep.getD "") cid] }) ∨
    (∃ hosts fe, fe.isFetch = true ∧
      update_bmh_files inv disk cid ep = process_document hosts fe disk) := by
  by_cases ht : truthy ep
  · cases hi : inv (ep.getD "") cid with
    | error e =>
      refine .inl ⟨e, rfl, ?_⟩
      simp [update_bmh_files, ht, hi]
    | ok hosts =>
      refine .inr ⟨hosts, .fetchInventory (ep.getD "") cid, rfl, ?_⟩
      simp [update_bmh_files, ht, hi]
  · refine .inr ⟨get_test_list_hosts cid, .fetchStub cid, rfl, ?_⟩
    simp [update_bmh_files, ht]

/-- Claim C1: if any step before persisting fails (host-list retrieval,
opening or decoding the document, locating manifests, or a mutation
raising), `update_bmh_files` raises an error and the on-disk document file
is never opened for writing, so its contents are unchanged; the document is
written back only on a run whose every step succeeded. -/
theorem update_bmh_files_aborts_before_write
    (inv : String → String → Except BmhError (List HostRecord))
    (disk : DiskFile) (cid : String) (ep : Option String) :
    (∀ m, (update_bmh_files inv disk cid ep).result = .error m →
      (update_bmh_files inv disk cid ep).disk = disk ∧
      Event.openWrite ∉ (update_bmh_files inv disk cid ep).events) ∧
    (Event.openWrite ∈ (update_bmh_files inv disk cid ep).events →
      (update_bmh_files inv disk cid ep).result = .ok ()) := by
  rcases update_bmh_files_shape inv disk cid ep with ⟨e, _, hsh⟩ | ⟨hosts, fe, hfe, hsh⟩
  · rw [hsh]
    constructor
    · intro m _
      refine ⟨rfl, ?_⟩
      intro hc
      simp at hc
    · intro hc
      simp at hc
  · rw [hsh]
    cases hr : (process_document hosts fe disk).raised with
    | some e =>
      have hf := process_document_fail hosts fe disk e hfe hr
      constructor
      · intro m _
        exact ⟨hf.1, hf.2.2.2⟩
      · intro hmem
        exact absurd hmem hf.2.2.2
    | none =>
      have hw := process_document_wraps hosts fe disk
      rw [hr] at hw
      constructor
      · intro m hm
        rw [hw] at hm
        simp at hm
      · intro _
        exact hw

/-- Witness for C1 at a concrete input: with an unreachable inventory
endpoint the run fails, the on-disk document is unchanged, and the file is
never opened for writing. -/
theorem update_bmh_files_aborts_before_write_witness :
    (update_bmh_files downInv (.doc sampleDoc) "c1" (some "http://api")).disk =
        .doc sampleDoc ∧
    Event.openWrite ∉
      (update_bmh_files downInv (.doc sampleDoc) "c1" (some "http://api")).events :=
  (update_bmh_files_aborts_before_write downInv (.doc sampleDoc) "c1" (some "http://api")).1
    (wrap_error (.retrieval "endpoint unreachable")) rfl

/-- Claim C4 counterexample: the persist step is not atomic.  On a concrete
successful run the on-disk trace contains the truncated state — the state a
reader observes between the open-for-write (which truncates the file) and
the dump of the new content — and that state is neither the original nor
the final document. -/
theorem update_bmh_files_truncation_observable_cex :
    DiskFile.truncated ∈
      (update_bmh_files oneHostInv (.doc sampleDoc) "c1" (some "http://api")).diskTrace ∧
    (update_bmh_files oneHostInv (.doc sampleDoc) "c1" (some "http://api")).result = .ok () ∧
    (update_bmh_files oneHostInv (.doc sampleDoc) "c1" (some "http://api")).diskTrace.head? =
      some (.doc sampleDoc) ∧
    (update_bmh_files oneHostInv (.doc sampleDoc) "c1" (some "http://api")).diskTrace.getLast? ≠
      some DiskFile.truncated := by
  refine ⟨by decide, rfl, rfl, by decide⟩

/-- Claim C4 as amended: the persist step overwrites the document in place
rather than writing to a temporary file and renaming.  A failure anywhere
before the write-open leaves the original file untouched (the trace is just
the initial state), but a successful run exposes a truncated intermediate
state between the write-open and the dump of the new content. -/
theorem update_bmh_files_write_trace
    (inv : String → String → Except BmhError (List HostRecord))
    (disk : DiskFile) (cid : String) (ep : Option String) :
    ((update_bmh_files inv disk cid ep).result = .ok () →
      (update_bmh_files inv disk cid ep).diskTrace =
        [disk, .truncated, (update_bmh_files inv disk cid ep).disk]) ∧
    (∀ m, (update_bmh_files inv disk cid ep).result = .error m →
      (update_bmh_files inv disk cid ep).diskTrace = [disk] ∧
      (update_bmh_files inv disk cid ep).disk = disk) := by
  rcases update_bmh_files_shape inv disk cid ep with ⟨e, _, hsh⟩ | ⟨hosts, fe, hfe, hsh⟩
  · rw [hsh]
    constructor
    · intro h
      simp at h
    · intro m _
      exact ⟨rfl, rfl⟩
  · rw [hsh]
    cases hr : (process_document hosts fe disk).raised with
    | some e =>
      have hf := process_document_fail hosts fe disk e hfe hr
      constructor
      · intro h
        rw [hf.2.2.1] at h
        simp at h
      · intro m _
        exact ⟨hf.2.1, hf.1⟩
    | none =>
      obtain ⟨data, files2, hs2, hdisk, hloop, hpd⟩ :=
        process_document_success hosts fe disk hr
      rw [hpd]
      constructor
      · intro _
        rfl
      · intro m hm
        simp at hm


/-- Witness for the amended C4 at a concrete input: a failing run leaves
the trace at just the original document, i.e. nothing was written. -/
theorem update_bmh_files_write_trace_witness :
    (update_bmh_files downInv (.doc sampleDoc) "c1" (some "http://api")).diskTrace =
        [.doc sampleDoc] ∧
    (update_bmh_files downInv (.doc sampleDoc) "c1" (some "http://api")).disk =
        .doc sampleDoc :=
  (update_bmh_files_write_trace downInv (.doc sampleDoc) "c1" (some "http://api")).2
    (wrap_error (.retrieval "endpoint unreachable")) rfl

/-- Claim C8: every failure raised inside `update_bmh_files` surfaces to
the caller as a single top-level error whose message wraps the original
cause; a run that raises nothing returns normally. -/
theorem update_bmh_files_single_error_surface
    (inv : String → String → Except BmhError (List HostRecord))
    (disk : DiskFile) (cid : String) (ep : Option String) :
    ((update_bmh_files inv disk cid ep).result =
      match (update_bmh_files inv disk cid ep).raised with
      | some e => .error (wrap_error e)
      | none => .ok ()) ∧
    (∀ m, (update_bmh_files inv disk cid ep).result = .error m →
      ∃ e, (update_bmh_files inv disk cid ep).raised = some e ∧
        m = "Failed to update BMH CRs in bootstrap ignition, exception: " ++ e.text) := by
  rcases update_bmh_files_shape inv disk cid ep with ⟨e, _, hsh⟩ | ⟨hosts, fe, _, hsh⟩
  · rw [hsh]
    refine ⟨rfl, ?_⟩
    intro m hm
    simp at hm
    exact ⟨e, rfl, hm.symm⟩
  · rw [hsh]
    have hw := process_document_wraps hosts fe disk
    refine ⟨hw, ?_⟩
    intro m hm
    cases hr : (process_document hosts fe disk).raised with
    | some e2 =>
      rw [hr] at hw
      rw [hw] at hm
      simp at hm
      exact ⟨e2, rfl, hm.symm⟩
    | none =>
      rw [hr] at hw
      rw [hw] at hm
      simp at hm

/-- Witness for C8 at a concrete input: the retrieval failure surfaces as
the single wrapped top-level error. -/
theorem update_bmh_files_single_error_surface_witness :
    ∃ e, (update_bmh_files downInv (.doc sampleDoc) "c1" (some "http://api")).raised =
        some e ∧
      wrap_error (BmhError.retrieval "endpoint unreachable") =
        "Failed to update BMH CRs in bootstrap ignition, exception: " ++ e.text :=
  (update_bmh_files_single_error_surface downInv (.doc sampleDoc) "c1"
      (some "http://api")).2
    (wrap_error (.retrieval "endpoint unreachable")) rfl

/-- Claim C2: after a successful run on a well-formed document, the
persisted document has the same number of entries, in the same order; every
entry whose path does not satisfy the BMH predicate is unchanged in all
fields, and only the content payload of matching entries may differ (path,
mode, overwrite flag and auxiliary metadata are preserved for those too);
the other top-level sections are untouched. -/
theorem update_bmh_files_frame
    (inv : String → String → Except BmhError (List HostRecord))
    (d : BootDocument) (cid : String) (ep : Option String)
    (h : (update_bmh_files inv (.doc d) cid ep).result = .ok ()) :
    ∃ d2, (update_bmh_files inv (.doc d) cid ep).disk = .doc d2 ∧
      d2.rest = d.rest ∧ d2.files.length = d.files.length ∧
      List.Forall₂ entryRel d.files d2.files := by
  rcases update_bmh_files_shape inv (.doc d) cid ep with ⟨e, _, hsh⟩ | ⟨hosts, fe, hfe, hsh⟩
  · rw [hsh] at h
    simp at h
  · rw [hsh] at h ⊢
    cases hr : (process_document hosts fe (.doc d)).raised with
    | some e =>
      have hf := process_document_fail hosts fe (.doc d) e hfe hr
      rw [hf.2.2.1] at h
      simp at h
    | none =>
      obtain ⟨data, files2, hs2, hdisk, hloop, hpd⟩ :=
        process_document_success hosts fe (.doc d) hr
      injection hdisk with hd
      subst hd
      rw [hpd]
      have hfr := loop_frame d.files hosts files2 hs2 hloop
      exact ⟨{ d with files := files2 }, rfl, rfl, hfr.length_eq.symm, hfr⟩

/-- Witness for C2 at a concrete input: a successful run on `sampleDoc`. -/
theorem update_bmh_files_frame_witness :
    ∃ d2, (update_bmh_files oneHostInv (.doc sampleDoc) "c1" (some "http://api")).disk =
        .doc d2 ∧
      d2.rest = sampleDoc.rest ∧ d2.files.length = sampleDoc.files.length ∧
      List.Forall₂ entryRel sampleDoc.files d2.files :=
  update_bmh_files_frame oneHostInv sampleDoc "c1" (some "http://api") rfl

/-- Claim C3 counterexample: a document whose qualifying manifests
outnumber the host list can fail with a decode error rather than a
correlation error, when a malformed qualifying manifest is encountered
before the host list is exhausted.  The run still fails, but not with the
correlation error the claim asserts for every such document. -/
theorem update_bmh_files_excess_not_correlation_cex :
    1 < qualCount rawExcessDoc.files ∧
    (update_bmh_files oneHostInv (.doc rawExcessDoc) "c1" (some "http://api")).raised =
      some (.decodeErr
        "embedded content of /opt/openshift/openshift-master-9_baremetalhost.yaml is not a valid BMH manifest") ∧
    isCorrelationRaised
      (update_bmh_files oneHostInv (.doc rawExcessDoc) "c1" (some "http://api")).raised =
      false :=
  ⟨by decide, by decide, by decide⟩

/-- Claim C3 as amended: when the qualifying manifests outnumber the host
list, `update_bmh_files` always fails and the on-disk document is
unchanged — excess manifests are never silently skipped; the failure is the
correlation error whenever every qualifying manifest decodes (a malformed
qualifying manifest encountered first fails with a decode error
instead). -/
theorem update_bmh_files_excess_hosts_fail
    (hosts : List HostRecord) (d : BootDocument) (cid endpoint : String)
    (hne : (endpoint == "") = false)
    (hlt : hosts.length < qualCount d.files) :
    (∃ e, (update_bmh_files (fun _ _ => .ok hosts) (.doc d) cid (some endpoint)).raised =
        some e) ∧
    (update_bmh_files (fun _ _ => .ok hosts) (.doc d) cid (some endpoint)).disk = .doc d ∧
    ((∀ en ∈ d.files, is_bmh_cr_file en.path = true → en.contents.decodable = true) →
      (update_bmh_files (fun _ _ => .ok hosts) (.doc d) cid (some endpoint)).raised =
        some (.correlation "fewer host records than qualifying manifests")) := by
  have ht : truthy (some endpoint) = true := by simp [truthy, hne]
  have hrun : update_bmh_files (fun _ _ => .ok hosts) (.doc d) cid (some endpoint) =
      process_document hosts (.fetchInventory endpoint cid) (.doc d) := by
    simp [update_bmh_files, ht]
  rw [hrun]
  obtain ⟨err, herr⟩ := loop_excess_fails d.files hosts hlt
  cases hrec : update_files_loop d.files hosts with
  | mk evs res =>
    rw [hrec] at herr
    simp at herr
    subst herr
    refine ⟨⟨err, ?_⟩, ?_, ?_⟩
    · simp [process_document, hrec]
    · simp [process_document, hrec]
    · intro hdec
      have hcorr := loop_excess_correlation d.files hosts hlt hdec
      rw [hrec] at hcorr
      simp at hcorr
      simp [process_document, hrec, hcorr]

/-- Witness for the amended C3 at a concrete input: two decodable
qualifying manifests against a single host record fail with the correlation
error and leave the document unchanged. -/
theorem update_bmh_files_excess_hosts_fail_witness :
    (update_bmh_files (fun _ _ => .ok [hostA]) (.doc excessDoc) "c1"
        (some "http://api")).disk = .doc excessDoc ∧
    (update_bmh_files (fun _ _ => .ok [hostA]) (.doc excessDoc) "c1"
        (some "http://api")).raised =
      some (.correlation "fewer host records than qualifying manifests") :=
  ⟨(update_bmh_files_excess_hosts_fail [hostA] excessDoc "c1" "http://api" rfl
      (by decide)).2.1,
   (update_bmh_files_excess_hosts_fail [hostA] excessDoc "c1" "http://api" rfl
      (by decide)).2.2 (by decide)⟩

/-- Claim C5: on a document with zero qualifying entries the run decodes
and re-encodes the document unchanged: with no endpoint configured the run
succeeds and the persisted document equals the input exactly, and any
successful run (whatever the provider) persists the input document
exactly. -/
theorem update_bmh_files_no_match_identity
    (inv : String → String → Except BmhError (List HostRecord))
    (d : BootDocument) (cid : String) (ep : Option String)
    (h : ∀ e ∈ d.files, is_bmh_cr_file e.path = false) :
    (update_bmh_files inv (.doc d) cid none).result = .ok () ∧
    (update_bmh_files inv (.doc d) cid none).disk = .doc d ∧
    ((update_bmh_files inv (.doc d) cid ep).result = .ok () →
      (update_bmh_files inv (.doc d) cid ep).disk = .doc d) := by
  have hpd : ∀ hosts (fe : Event), process_document hosts fe (.doc d) =
      { result := .ok (), raised := none, disk := .doc d,
        diskTrace := [.doc d, .truncated, .doc d],
        events := [fe, .openRead, .openWrite, .writeDoc] } := by
    intro hosts fe
    have hl := loop_no_match d.files hosts h
    simp [process_document, hl]
  have hnone : update_bmh_files inv (.doc d) cid none =
      process_document (get_test_list_hosts cid) (.fetchStub cid) (.doc d) := by
    simp [update_bmh_files, truthy]
  refine ⟨?_, ?_, ?_⟩
  · rw [hnone, hpd]
  · rw [hnone, hpd]
  · intro hok
    rcases update_bmh_files_shape inv (.doc d) cid ep with ⟨e, _, hsh⟩ | ⟨hosts, fe, _, hsh⟩
    · rw [hsh] at hok
      simp at hok
    · rw [hsh]
      rw [hpd]

/-- Witness for C5 at a concrete input: a document with no qualifying
entries round-trips unchanged. -/
theorem update_bmh_files_no_match_identity_witness :
    (update_bmh_files oneHostInv (.doc noMatchDoc) "c1" none).result = .ok () ∧
    (update_bmh_files oneHostInv (.doc noMatchDoc) "c1" none).disk = .doc noMatchDoc :=
  ⟨(update_bmh_files_no_match_identity oneHostInv noMatchDoc "c1" none (by decide)).1,
   (update_bmh_files_no_match_identity oneHostInv noMatchDoc "c1" none (by decide)).2.1⟩

/-- Claim C6: the run is deterministic — its entire outcome is a function
of the original document, cluster id, endpoint and the host list the
provider returns, so running the injection twice against the same original
document with the same host list produces the same final document (indeed
the same full outcome) both times, even across distinct provider
functions. -/
theorem update_bmh_files_deterministic
    (inv1 inv2 : String → String → Except BmhError (List HostRecord))
    (disk : DiskFile) (cid : String) (ep : Option String)
    (h : inv1 (ep.getD "") cid = inv2 (ep.getD "") cid) :
    update_bmh_files inv1 disk cid ep = update_bmh_files inv2 disk cid ep := by
  by_cases ht : truthy ep
  · simp [update_bmh_files, ht, h]
  · simp [update_bmh_files, ht]

/-- Witness for C6 at a concrete input: two syntactically different
providers returning the same host list give identical outcomes. -/
theorem update_bmh_files_deterministic_witness :
    update_bmh_files oneHostInv (.doc sampleDoc) "c1" (some "http://api") =
      update_bmh_files (fun _ _ => .ok [hostA]) (.doc sampleDoc) "c1" (some "http://api") :=
  update_bmh_files_deterministic oneHostInv (fun _ _ => .ok [hostA]) (.doc sampleDoc)
    "c1" (some "http://api") rfl

theorem filter_isFetch_nil (tl : List Event) (h : ∀ ev ∈ tl, ev.isFetch = false) :
    tl.filter Event.isFetch = [] := by
  induction tl with
  | nil => rfl
  | cons a as ih =>
    rw [List.filter_cons, h a (by simp)]
    simpa using ih (fun x hx => h x (by simp [hx]))

theorem process_document_events (hosts : List HostRecord) (fe : Event) (disk : DiskFile) :
    ∃ tl, (process_document hosts fe disk).events = fe :: tl ∧
      ∀ ev ∈ tl, ev.isFetch = false := by
  cases disk with
  | doc data =>
    cases hrec : update_files_loop data.files hosts with
    | mk evs res =>
      have hevs : ∀ ev ∈ evs, ev.isFetch = false := by
        intro ev hev
        obtain ⟨p, hp⟩ := loop_events_mutate data.files hosts ev (by rw [hrec]; exact hev)
        rw [hp]; rfl
      cases res with
      | error e =>
        refine ⟨.openRead :: evs, by simp [process_document, hrec], ?_⟩
        intro ev hev
        rcases List.mem_cons.mp hev with h1 | h2
        · rw [h1]; rfl
        · exact hevs ev h2
      | ok pr =>
        obtain ⟨fs, hs⟩ := pr
        refine ⟨.openRead :: evs ++ [.openWrite, .writeDoc],
          by simp [process_document, hrec], ?_⟩
        intro ev hev
        rcases List.mem_cons.mp hev with h1 | h2
        · rw [h1]; rfl
        · rcases List.mem_append.mp h2 with h3 | h3
          · exact hevs ev h3
          · rcases List.mem_cons.mp h3 with h4 | h4
            · rw [h4]; rfl
            · simp at h4; rw [h4]; rfl
  | malformed s =>
    refine ⟨[.openRead], by simp [process_document], ?_⟩
    intro ev hev
    simp at hev
    rw [hev]; rfl
  | truncated =>
    refine ⟨[.openRead], by simp [process_document], ?_⟩
    intro ev hev
    simp at hev
    rw [hev]; rfl

/-- Claim C7: the host list is resolved exactly once and before any other
step: the event trace contains exactly one fetch event, it is the very
first event, and it is the live-inventory fetch against the configured
endpoint and cluster id when the endpoint is non-empty, the deterministic
stub fetch otherwise. -/
theorem update_bmh_files_fetch_once
    (inv : String → String → Except BmhError (List HostRecord))
    (disk : DiskFile) (cid : String) (ep : Option String) :
    ((update_bmh_files inv disk cid ep).events.filter Event.isFetch =
      [if truthy ep = true then .fetchInventory (ep.getD "") cid else .fetchStub cid]) ∧
    ((update_bmh_files inv disk cid ep).events.head? =
      some (if truthy ep = true then .fetchInventory (ep.getD "") cid
            else .fetchStub cid)) := by
  by_cases ht : truthy ep
  · rw [if_pos ht]
    cases hi : inv (ep.getD "") cid with
    | error e =>
      have hrun : update_bmh_files inv disk cid ep =
          { result := .error (wrap_error e), raised := some e, disk := disk,
            diskTrace := [disk], events := [.fetchInventory (ep.getD "") cid] } := by
        simp [update_bmh_files, ht, hi]
      rw [hrun]
      exact ⟨rfl, rfl⟩
    | ok hosts =>
      have hrun : update_bmh_files inv disk cid ep =
          process_document hosts (.fetchInventory (ep.getD "") cid) disk := by
        simp [update_bmh_files, ht, hi]
      rw [hrun]
      obtain ⟨tl, hevs, htl⟩ :=
        process_document_events hosts (.fetchInventory (ep.getD "") cid) disk
      rw [hevs]
      refine ⟨?_, rfl⟩
      rw [List.filter_cons]
      simp [Event.isFetch, filter_isFetch_nil tl htl]
  · rw [if_neg ht]
    have hrun : update_bmh_files inv disk cid ep =
        process_document (get_test_list_hosts cid) (.fetchStub cid) disk := by
      simp [update_bmh_files, ht]
    rw [hrun]
    obtain ⟨tl, hevs, htl⟩ :=
      process_document_events (get_test_list_hosts cid) (.fetchStub cid) disk
    rw [hevs]
    refine ⟨?_, rfl⟩
    rw [List.filter_cons]
    simp [Event.isFetch, filter_isFetch_nil tl htl]

theorem debug_print_upload_keys (files : List FoundFile) :
    List.Forall₂ (fun f pr => pr.1 = f.root ++ "/" ++ f.name ∧
        pr.2 = "dummy_cluster_id" ++ "/" ++
          (if f.name = "kubeconfig" then "kubeconfig-noingress" else f.name))
      files (debug_print_upload_to_s3 files) := by
  induction files with
  | nil => exact List.Forall₂.nil
  | cons f rest ih => exact List.Forall₂.cons ⟨rfl, rfl⟩ ih

/-- Claim C9: during artifact upload, every file whose base name is exactly
`kubeconfig` goes to the object key `cluster_id/kubeconfig-noingress` and
every other file to `cluster_id/` followed by its own base name, both in
the real upload and in the debug printer (which uses the fixed
`dummy_cluster_id`). -/
theorem upload_to_s3_key_mapping (client : String → String → UploadOutcome)
    (cid : String) (files : List FoundFile) (pairs : List (String × String))
    (h : upload_to_s3 client cid files = .ok pairs) :
    List.Forall₂ (fun f pr => pr.1 = f.root ++ "/" ++ f.name ∧
        pr.2 = cid ++ "/" ++
          (if f.name = "kubeconfig" then "kubeconfig-noingress" else f.name))
      files pairs ∧
    List.Forall₂ (fun f pr => pr.1 = f.root ++ "/" ++ f.name ∧
        pr.2 = "dummy_cluster_id" ++ "/" ++
          (if f.name = "kubeconfig" then "kubeconfig-noingress" else f.name))
      files (debug_print_upload_to_s3 files) := by
  refine ⟨?_, debug_print_upload_keys files⟩
  induction files generalizing pairs with
  | nil =>
    simp [upload_to_s3] at h
    rw [h]
    exact List.Forall₂.nil
  | cons f rest ih =>
    rw [upload_to_s3] at h
    cases hc : upload_to_aws (client (f.root ++ "/" ++ f.name)
        (cid ++ "/" ++ (if f.name = "kubeconfig" then "kubeconfig-noingress" else f.name))) with
    | error msg => rw [hc] at h; simp at h
    | ok b =>
      rw [hc] at h
      cases hrec : upload_to_s3 client cid rest with
      | error msg => rw [hrec] at h; simp at h
      | ok ps =>
        rw [hrec] at h
        simp at h
        rw [← h]
        exact List.Forall₂.cons ⟨rfl, rfl⟩ (ih ps hrec)

/-- Witness for C9 at a concrete input: a walk containing a `kubeconfig`
and another artifact maps to the remapped and plain keys respectively. -/
theorem upload_to_s3_key_mapping_witness :
    List.Forall₂ (fun f pr => pr.1 = f.root ++ "/" ++ f.name ∧
        pr.2 = "c1" ++ "/" ++
          (if f.name = "kubeconfig" then "kubeconfig-noingress" else f.name))
      walkFiles walkPairs :=
  (upload_to_s3_key_mapping allSuccessClient "c1" walkFiles walkPairs rfl).1

/-- Claim C10: a missing-credentials failure does not abort the upload:
`upload_to_aws` catches the error and returns False instead of raising, and
`upload_to_s3` ignores that boolean and continues with the remaining files,
so when no other kind of exception occurs every file is attempted and the
caller receives no error. -/
theorem upload_missing_credentials_continues
    (client : String → String → UploadOutcome) (cid : String) (files : List FoundFile)
    (hnc : ∀ fp k msg, client fp k ≠ .otherError msg) :
    upload_to_aws .noCredentials = .ok false ∧
    ∃ pairs, upload_to_s3 client cid files = .ok pairs ∧
      pairs.length = files.length := by
  refine ⟨rfl, ?_⟩
  induction files with
  | nil => exact ⟨[], rfl, rfl⟩
  | cons f rest ih =>
    obtain ⟨pairs, hp, hlen⟩ := ih
    cases hc : client (f.root ++ "/" ++ f.name)
        (cid ++ "/" ++ (if f.name = "kubeconfig" then "kubeconfig-noingress" else f.name)) with
    | otherError msg => exact absurd hc (hnc _ _ msg)
    | success =>
      refine ⟨(f.root ++ "/" ++ f.name,
        cid ++ "/" ++ (if f.name = "kubeconfig" then "kubeconfig-noingress" else f.name)) ::
          pairs, ?_, by simp [hlen]⟩
      rw [upload_to_s3, hc]
      simp [upload_to_aws, hp]
    | noCredentials =>
      refine ⟨(f.root ++ "/" ++ f.name,
        cid ++ "/" ++ (if f.name = "kubeconfig" then "kubeconfig-noingress" else f.name)) ::
          pairs, ?_, by simp [hlen]⟩
      rw [upload_to_s3, hc]
      simp [upload_to_aws, hp]

/-- Witness for C10 at a concrete input: with no credentials configured,
both files are still attempted and no error is returned. -/
theorem upload_missing_credentials_continues_witness :
    upload_to_aws .noCredentials = .ok false ∧
    ∃ pairs, upload_to_s3 noCredsClient "c1" walkFiles = .ok pairs ∧
      pairs.length = walkFiles.length :=
  upload_missing_credentials_continues noCredsClient "c1" walkFiles
    (fun fp k msg => by simp [noCredsClient])

end RenderFiles
